import Mathlib

/-!
Verification development for the asymmetric-encryption (ECIES) engine of the
chain-js repository: the single-recipient engine (encryptWithPublicKey and
decryptWithPrivateKey), its options composer, constant-time MAC comparison,
curve dispatch, the multi-recipient onion engine, and signing.

Modelling conventions:
  * JS strings are identified with their UTF-8 code-unit sequences, so both
    byte buffers and strings are values of type List Nat.  All byte values
    produced by the real libraries are below 256; where a proof needs that
    fact it appears as an explicit hypothesis.
  * External library primitives (node crypto hashes, HMAC, symmetric ciphers,
    the secp256k1 ECDH/ECDSA library, tweetnacl x25519) are parameters of the
    embedding, collected in the structure CryptoPrims.  Theorems that need
    them well-behaved state those properties as hypotheses; a small concrete
    instance toyPrims discharges them in witnesses.
  * Thrown JS exceptions are modelled with Except JsError; TypeErrors raised
    by the runtime (destructuring undefined, Buffer.concat on undefined,
    invalid base64) are distinguished from errors thrown via throwNewError.
  * Randomness (the fresh ephemeral key pair generated per encryption) is
    made explicit: encryption takes the ephemeral private key as an argument.
-/

namespace ChainJs

/-- Byte sequences (JS Buffer contents). -/
abbrev Bytes := List Nat

/-- JS strings, identified with their UTF-8 code-unit sequence. -/
abbrev Str := List Nat

/-- Errors thrown by the engine: either an Error produced via throwNewError
or a TypeError produced by the JS runtime or a library validator. -/
inductive JsError where
  | error (msg : String)
  | typeError (msg : String)
deriving DecidableEq, Repr

/-! ### Hex encoding (Buffer.from(s, 'hex') and buf.toString('hex')) -/

/-- Value of a single hex digit character code (0-9, a-f, A-F), as node
accepts both cases when hex-decoding. -/
def hexDigitVal (c : Nat) : Option Nat :=
  if 48 ≤ c ∧ c ≤ 57 then some (c - 48)
  else if 97 ≤ c ∧ c ≤ 102 then some (c - 87)
  else if 65 ≤ c ∧ c ≤ 70 then some (c - 55)
  else none

/-- Lowercase hex digit character code for a value below 16 (node encodes
lowercase). -/
def hexValDigit (n : Nat) : Nat :=
  if n < 10 then 48 + n else 87 + n

/-- buf.toString('hex'): two lowercase hex digits per byte. -/
def hexEncode (b : Bytes) : Str :=
  b.flatMap (fun x => [hexValDigit (x / 16 % 16), hexValDigit (x % 16)])

/-- Buffer.from(s, 'hex'): node decodes hex pairs from the start of the
string and stops (without error) at the first character pair that is not
valid hex, also dropping a trailing unpaired digit. -/
def hexDecodeLoose : Str → Bytes
  | c1 :: c2 :: rest =>
    match hexDigitVal c1, hexDigitVal c2 with
    | some h, some l => (16 * h + l) :: hexDecodeLoose rest
    | _, _ => []
  | _ => []

/-! ### Base64 (tweetnacl-util encodeBase64 / decodeBase64) -/

/-- Character code of the base64 alphabet at index n (n below 64). -/
def b64Char (n : Nat) : Nat :=
  if n < 26 then 65 + n
  else if n < 52 then 97 + (n - 26)
  else if n < 62 then 48 + (n - 52)
  else if n = 62 then 43
  else 47

/-- Index of a base64 alphabet character code, none for characters outside
the alphabet. -/
def b64Index (c : Nat) : Option Nat :=
  if 65 ≤ c ∧ c ≤ 90 then some (c - 65)
  else if 97 ≤ c ∧ c ≤ 122 then some (c - 97 + 26)
  else if 48 ≤ c ∧ c ≤ 57 then some (c - 48 + 52)
  else if c = 43 then some 62
  else if c = 47 then some 63
  else none

/-- tweetnacl-util encodeBase64: standard base64 with padding. -/
def base64Encode : Bytes → Str
  | [] => []
  | [b1] => [b64Char (b1 / 4 % 64), b64Char (b1 % 4 * 16), 61, 61]
  | [b1, b2] =>
    [b64Char (b1 / 4 % 64), b64Char (b1 % 4 * 16 + b2 / 16 % 16),
     b64Char (b2 % 16 * 4), 61]
  | b1 :: b2 :: b3 :: rest =>
    [b64Char (b1 / 4 % 64), b64Char (b1 % 4 * 16 + b2 / 16 % 16),
     b64Char (b2 % 16 * 4 + b3 / 64 % 4), b64Char (b3 % 64)] ++
    base64Encode rest

/-- tweetnacl-util decodeBase64, which validates its input and fails (the
library throws a TypeError with message invalid encoding) on strings that
are not well-formed base64. -/
def base64Decode : Str → Option Bytes
  | [] => some []
  | [c1, c2, 61, 61] => do
    let i1 ← b64Index c1
    let i2 ← b64Index c2
    some [i1 % 64 * 4 + i2 / 16 % 4]
  | [c1, c2, c3, 61] => do
    let i1 ← b64Index c1
    let i2 ← b64Index c2
    let i3 ← b64Index c3
    some [i1 % 64 * 4 + i2 / 16 % 4, i2 % 16 * 16 + i3 / 4 % 16]
  | c1 :: c2 :: c3 :: c4 :: rest => do
    let i1 ← b64Index c1
    let i2 ← b64Index c2
    let i3 ← b64Index c3
    let i4 ← b64Index c4
    let tail ← base64Decode rest
    some ([i1 % 64 * 4 + i2 / 16 % 4, i2 % 16 * 16 + i3 / 4 % 16,
           i3 % 4 * 64 + i4 % 64] ++ tail)
  | _ => none

/-! ### External cryptographic primitives

The engine calls into node crypto, the secp256k1 npm package and tweetnacl.
Those libraries are outside the repository; the embedding is parametric in
them. -/

/-- External library primitives used by the engine.  Fields take the cipher
or hash name first, mirroring the node crypto API. -/
structure CryptoPrims where
  /-- crypto.createHash(name).update(m).digest() -/
  hash : String → Bytes → Bytes
  /-- crypto.createHmac(name, key).update(m).digest() -/
  hmac : String → Bytes → Bytes → Bytes
  /-- crypto.createCipheriv(name, key, iv) followed by update and final -/
  cipherIv : String → Bytes → Bytes → Bytes → Bytes
  /-- crypto.createDecipheriv(name, key, iv) followed by update and final -/
  decipherIv : String → Bytes → Bytes → Bytes → Bytes
  /-- deprecated crypto.createCipher(name, password): EVP_BytesToKey key
  derivation, distinct from cipherIv with an empty iv -/
  cipherLegacy : String → Bytes → Bytes → Bytes
  /-- deprecated crypto.createDecipher(name, password) -/
  decipherLegacy : String → Bytes → Bytes → Bytes
  /-- secp256k1 ECDH public key of a private key, serialized per key format -/
  secpPub : Option String → Bytes → Bytes
  /-- secp256k1 ECDH shared secret: private key and peer public key -/
  secpShared : Bytes → Bytes → Bytes
  /-- x25519 public key of a private key (tweetnacl) -/
  edPub : Bytes → Bytes
  /-- x25519 shared secret: private key and peer public key (tweetnacl) -/
  edShared : Bytes → Bytes → Bytes
  /-- ECDSA public key of a signing private key -/
  sigPub : Bytes → Bytes
  /-- secp256k1 ecdsaSign over a 32-byte digest -/
  ecdsaSign : Bytes → Bytes → Bytes
  /-- secp256k1 ecdsaVerify: signature, digest, public key -/
  ecdsaVerify : Bytes → Bytes → Bytes → Bool

/-- Concrete small-scale instance of the primitives, used to evaluate the
engine on explicit inputs.  The discrete-log style key agreement makes the
Diffie-Hellman symmetry law hold, and the shift cipher is inverted by its
decipher. -/
def toyPrims : CryptoPrims where
  hash := fun _ m => m
  hmac := fun _ k m => (k.length :: m.length :: (k ++ m)).map (· % 256)
  cipherIv := fun _ k iv d => d.map (fun b => (b + k.sum + iv.sum) % 256)
  decipherIv := fun _ k iv d =>
    d.map (fun b => (b + (256 - (k.sum + iv.sum) % 256)) % 256)
  cipherLegacy := fun _ k d => d.map (fun b => (b + k.sum + 7) % 256)
  decipherLegacy := fun _ k d =>
    d.map (fun b => (b + (256 - (k.sum + 7) % 256)) % 256)
  secpPub := fun _ p => [3 ^ p.sum % 251]
  secpShared := fun a q => [q.sum ^ a.sum % 251]
  edPub := fun p => [7 ^ p.sum % 251]
  edShared := fun a q => [q.sum ^ a.sum % 251]
  sigPub := fun p => p.map (· % 256)
  ecdsaSign := fun d p => (d ++ p).map (· % 256)
  ecdsaVerify := fun s d q => s == (d ++ q).map (· % 256)

/-! ### Data model: options and envelope -/

/-- The iv option as supplied by a caller: undefined (or absent), explicit
null, or a hex string. -/
inductive IvIn where
  | undef
  | null
  | str (s : Str)
deriving DecidableEq, Repr

/-- The iv after composeOptions, as consumed by the symmetric cipher
wrappers: undefined selects the deprecated createCipher path, null and a
buffer select createCipheriv (null is replaced by an empty buffer there). -/
inductive IvArg where
  | undef
  | null
  | bytes (b : Bytes)
deriving DecidableEq, Repr

/-- Caller-supplied ECIES options (src asymmetricModels EciesOptions).
Fields that DefaultEciesOptions also carries are modelled as
Option (Option _): none is an absent key (the default survives the object
spread), some none is a key explicitly set to undefined (it overrides the
default with undefined), some (some v) is an explicit value.  s1 and s2 are
destructured out before the spread, so for them absent, undefined and null
are indistinguishable and a single Option layer suffices. -/
structure EciesOptions where
  hashCypherType : Option (Option String) := none
  macCipherType : Option (Option String) := none
  curveType : Option (Option String) := none
  symmetricCypherType : Option (Option String) := none
  keyFormat : Option (Option String) := none
  scheme : Option (Option String) := none
  iv : IvIn := .undef
  s1 : Option Str := none
  s2 : Option Str := none

/-- Options after composeOptions (src EciesOptionsAsBuffers).  After
composition symmetricCypherType is always a concrete string (line 381
replaces an explicitly-undefined value with the default, and the spread
fills an absent one), so it is typed String here; the other cipher-name
fields can still be undefined when a caller explicitly passes undefined. -/
structure EciesOptionsAsBuffers where
  hashCypherType : Option String
  macCipherType : Option String
  curveType : Option String
  symmetricCypherType : String
  keyFormat : Option String
  scheme : Option String
  iv : IvArg
  s1 : Bytes
  s2 : Bytes

/-- The wire-level result of single-recipient encryption
(AsymmetricEncryptedData).  none for iv and scheme models an absent or null
field. -/
structure AsymmetricEncryptedData where
  iv : Option Str
  publicKey : Str
  ephemPublicKey : Str
  ciphertext : Str
  mac : Str
  scheme : Option String := none
deriving DecidableEq, Repr

/-- Caller-supplied custom scheme configuration (CustomAsymmetricScheme).
The custom key generator receives the shared secret as the JS value the
engine computed, which can be undefined (none) on the receive path for an
unrecognized curve. -/
structure CustomAsymmetricScheme where
  scheme : Option String := none
  customMessageKeyGenerator : Option (Option Bytes → Bytes → Bytes → Bytes × Bytes) := none
  customMacGenerator : Option (Bytes → Bytes → Bytes → Bytes) := none

/-- The empty configuration object a caller must supply at minimum. -/
def emptyScheme : CustomAsymmetricScheme := {}

def DEFAULT_SECP256K1_ASYMMETRIC_SCHEME_NAME : String := "asym.chainjs.secp256k1"

def DEFAULT_ED25519_ASYMMETRIC_SCHEME_NAME : String := "asym.chainjs.ed25519"

/-- Default symmetric cipher from DefaultEciesOptions. -/
def defaultSymmetricCypherType : String := "aes-128-ecb"

/-- compose the right length of empty buffer for a specific cypherType:
aes-256-ctr requires a buffer value to exist (a 16-byte zero buffer), every
other cipher gets the shared empty buffer. -/
def emptyBufferForIv (symmetricCypherType : String) : Bytes :=
  if symmetricCypherType = "aes-256-ctr" then List.replicate 16 0 else []

/-- Merge of one defaulted option field under the object spread
(DefaultEciesOptions then caller options): an absent key keeps the default,
a key explicitly set to undefined overrides it with undefined. -/
def mergeField (dflt : String) : Option (Option String) → Option String
  | none => some dflt
  | some v => v

/-- Populate missing options with default values and convert iv, s1, s2 from
strings to buffers (src composeOptions, lines 370-403).  When the merged
symmetricCypherType is undefined (only possible through an explicit
undefined, since the spread fills absent keys with the default) it is
replaced by the default cipher and ivIn is forced to undefined.  The iv is
then resolved: a non-empty string is hex-parsed; undefined gives
emptyBufferForIv of the cipher; null stays null; an empty string leaves the
iv variable uninitialized, i.e. undefined. -/
def composeOptions (optionsIn : Option EciesOptions) : EciesOptionsAsBuffers :=
  let o := optionsIn.getD {}
  let symMerged := mergeField defaultSymmetricCypherType o.symmetricCypherType
  let symAndIv : String × IvIn :=
    match symMerged with
    | none => (defaultSymmetricCypherType, .undef)
    | some c => (c, o.iv)
  let iv : IvArg :=
    match symAndIv.2 with
    | .str s => if s ≠ [] then .bytes (hexDecodeLoose s) else .undef
    | .undef => .bytes (emptyBufferForIv symAndIv.1)
    | .null => .null
  { hashCypherType := mergeField "sha256" o.hashCypherType
    macCipherType := mergeField "sha256" o.macCipherType
    curveType := mergeField "secp256k1" o.curveType
    symmetricCypherType := symAndIv.1
    keyFormat := mergeField "uncompressed" o.keyFormat
    scheme := o.scheme.join
    iv := iv
    s1 := (o.s1.filter (· ≠ [])).getD []
    s2 := (o.s2.filter (· ≠ [])).getD [] }

/-- JS truthiness filter on an optional string: undefined, null and the
empty string are falsy. -/
def truthy : Option String → Option String
  | some s => if s = "" then none else some s
  | none => none

/-- return default asymmetric encryption scheme notation for a given curve
(null for an unrecognized curve). -/
def getDefaultScheme (curveType : Option String) : Option String :=
  if curveType = some "ed25519" then some DEFAULT_ED25519_ASYMMETRIC_SCHEME_NAME
  else if curveType = some "secp256k1" then some DEFAULT_SECP256K1_ASYMMETRIC_SCHEME_NAME
  else none

/-- The scheme resolution shared by encrypt and decrypt:
customScheme or else options scheme or else the curve default, with JS
or-chains treating the empty string as falsy. -/
def resolvedScheme (cas : CustomAsymmetricScheme)
    (opts : EciesOptionsAsBuffers) : Option String :=
  match truthy cas.scheme with
  | some v => some v
  | none =>
    match truthy opts.scheme with
    | some v => some v
    | none => getDefaultScheme opts.curveType

/-! ### Error messages -/

def notSupportedCurveMsg : String := "Not supported CurveType"

def macMismatchMsg : String :=
  "decryptWithPrivateKey: mac does not match - encrypted value may be corrupted"

/-- Message of the error thrown on a scheme mismatch, interpolating the
resolved scheme (null prints as the string null) and the envelope scheme. -/
def schemeMismatchMsg (resolved : Option String) (envScheme : String) : String :=
  "decryptWithPrivateKey: scheme does not match - expected " ++
    (match resolved with | some s => s | none => "null") ++
    ", encrypted value scheme:" ++ envScheme

/-- TypeError raised when destructuring the absent customAsymScheme
argument. -/
def destructureMsg : String :=
  "Cannot destructure property scheme of customAsymScheme as it is undefined"

/-- TypeError raised by Buffer.concat when the shared secret is undefined. -/
def concatUndefinedMsg : String :=
  "Buffer.concat list argument must contain only Buffer instances"

/-- TypeError raised by crypto.createHash / createHmac when the algorithm
name is undefined. -/
def badAlgorithmMsg : String := "The algorithm argument must be a string"

/-- TypeError thrown by tweetnacl-util decodeBase64 on invalid input. -/
def invalidEncodingMsg : String := "invalid encoding"

/-! ### Constant-time comparison (src equalConstTime, lines 358-368) -/

/-- Compare two buffers in constant time: reject on unequal length, then OR
together the XOR of every byte pair and test the accumulated word against
zero. -/
def equalConstTime (b1 b2 : Bytes) : Bool :=
  if b1.length ≠ b2.length then false
  else ((b1.zip b2).foldl (fun r p => r ||| (p.1 ^^^ p.2)) 0) == 0

/-- Number of loop iterations equalConstTime performs: the loop has no early
exit, so with equal lengths it always visits every index. -/
def equalConstTimeSteps (b1 b2 : Bytes) : Nat :=
  if b1.length ≠ b2.length then 0
  else (b1.zip b2).foldl (fun c _ => c + 1) 0

/-! ### Curve layer

The bodies of the four curve agreement primitives live in diffieHellman.ts,
which is not under src/; they are modelled from the spec (section 4.2 and
section 6).  The dispatch functions below them are translated from src. -/

/-- Result of sender-side agreement: the ephemeral public key is a Buffer
for secp256k1 but a base64 string for ed25519; the engine stores and hashes
it through Buffer.from, whose behavior differs between the two. -/
inductive BufOrStr where
  | buf (b : Bytes)
  | str (s : Str)
deriving DecidableEq, Repr

/-- Buffer.from(x, 'hex'): a Buffer argument is copied (the encoding is
ignored), a string argument is hex-decoded. -/
def bufferFromHex : BufOrStr → Bytes
  | .buf b => b
  | .str s => hexDecodeLoose s

/-- Buffer.from(x): a Buffer argument is copied, a string argument is
utf8-encoded (the identity in this embedding). -/
def bufferFromPlain : BufOrStr → Bytes
  | .buf b => b
  | .str s => s

/-- Modelled from the spec: generateEphemPublicKeyAndSharedSecretType1 from
diffieHellman.ts (not under src/).  For secp256k1 it generates a fresh
ephemeral key pair (here the ephemeral private key is an explicit argument),
computes the ECDH point with the recipient public key and serializes the
ephemeral public key per keyFormat, returning it as a Buffer. -/
def generateEphemPublicKeyAndSharedSecretType1 (P : CryptoPrims)
    (ephemPriv publicKey : Bytes) (keyFormat : Option String) :
    BufOrStr × Bytes :=
  (.buf (P.secpPub keyFormat ephemPriv), P.secpShared ephemPriv publicKey)

/-- Modelled from the spec: generateEphemPublicKeyAndSharedSecretEd25519
from diffieHellman.ts (not under src/).  X25519-style agreement from raw key
bytes; the ephemeral public key is returned base64-encoded (spec section 6:
ed25519 ephemeral public keys are base64-encoded before being hex-wrapped
for storage). -/
def generateEphemPublicKeyAndSharedSecretEd25519 (P : CryptoPrims)
    (ephemPriv publicKey : Bytes) : BufOrStr × Bytes :=
  (.str (base64Encode (P.edPub ephemPriv)), P.edShared ephemPriv publicKey)

/-- Modelled from the spec: generateSharedSecretType1 from diffieHellman.ts
(not under src/): ECDH shared secret from the stored ephemeral public key
and the recipient private key. -/
def generateSharedSecretType1 (P : CryptoPrims)
    (ephemPublicKeyBuffer privateKey : Bytes) : Bytes :=
  P.secpShared privateKey ephemPublicKeyBuffer

/-- Modelled from the spec: generateSharedSecretEd25519 from
diffieHellman.ts (not under src/): X25519 shared secret from the decoded
ephemeral public key and the recipient private key. -/
def generateSharedSecretEd25519 (P : CryptoPrims)
    (decodedPublicKey privateKey : Bytes) : Bytes :=
  P.edShared privateKey decodedPublicKey

/-- Sender-side curve dispatch (src lines 412-428): secp256k1 and ed25519
each produce a result; any other curve tag leaves result unset and the
function throws Not supported CurveType. -/
def generateSharedSecretAndEphemPublicKey (P : CryptoPrims)
    (ephemPriv : Bytes) (publicKey : Bytes) (curveType : Option String)
    (keyFormat : Option String) : Except JsError (BufOrStr × Bytes) :=
  if curveType = some "secp256k1" then
    .ok (generateEphemPublicKeyAndSharedSecretType1 P ephemPriv publicKey keyFormat)
  else if curveType = some "ed25519" then
    .ok (generateEphemPublicKeyAndSharedSecretEd25519 P ephemPriv publicKey)
  else
    .error (.error notSupportedCurveMsg)

/-- Receiver-side result: both fields stay undefined (none) when the curve
tag is not recognized, as the source has no fallback throw on this path. -/
structure SharedSecretResult where
  ephemPublicKeyBuffer : Option Bytes
  sharedSecret : Option Bytes
deriving DecidableEq, Repr

/-- Receiver-side curve dispatch (src lines 430-448).  For secp256k1 the
stored ephemeral public key is hex-decoded and fed to ECDH.  For ed25519 it
is hex-decoded to the utf8 bytes of a base64 string, which decodeBase64
validates (throwing a TypeError on invalid encoding) and decodes before
agreement.  For any other curve tag both result fields remain undefined and
no error is raised. -/
def generateSharedSecretUsingPrivateKey (P : CryptoPrims)
    (privateKey : Bytes) (ephemPublicKey : Str) (curveType : Option String) :
    Except JsError SharedSecretResult :=
  if curveType = some "secp256k1" then
    let ephemPublicKeyBuffer := hexDecodeLoose ephemPublicKey
    .ok ⟨some ephemPublicKeyBuffer,
         some (generateSharedSecretType1 P ephemPublicKeyBuffer privateKey)⟩
  else if curveType = some "ed25519" then
    let ephemPublicKeyBuffer := hexDecodeLoose ephemPublicKey
    match base64Decode ephemPublicKeyBuffer with
    | none => .error (.typeError invalidEncodingMsg)
    | some decodedPublicKey =>
      .ok ⟨some ephemPublicKeyBuffer,
           some (generateSharedSecretEd25519 P decodedPublicKey privateKey)⟩
  else
    .ok ⟨none, none⟩

/-! ### KDF, MAC and symmetric cipher wrappers -/

/-- uses KDF to derive a symmetric encryption key from message (src
generateMessageHash): createHash throws a TypeError when the cipher name is
undefined. -/
def generateMessageHash (P : CryptoPrims) (cypherName : Option String)
    (message : Bytes) : Except JsError Bytes :=
  match cypherName with
  | none => .error (.typeError badAlgorithmMsg)
  | some n => .ok (P.hash n message)

/-- computes the tag of the encrypted message provided (src
generateMessageMac): createHmac throws a TypeError when the cipher name is
undefined. -/
def generateMessageMac (P : CryptoPrims) (cypherName : Option String)
    (key : Bytes) (message : Bytes) : Except JsError Bytes :=
  match cypherName with
  | none => .error (.typeError badAlgorithmMsg)
  | some n => .ok (P.hmac n key message)

/-- Key derivation step shared verbatim by encrypt and decrypt (src lines
468-482 and 547-562): a custom generator bypasses the default KDF entirely;
otherwise Buffer.concat of sharedSecret, s1 and the ephemeral key bytes
(raising a TypeError when the shared secret is undefined) is hashed and
split into halves, the first half the cipher key, the second the MAC key. -/
def kdfKeys (P : CryptoPrims) (hashCypherType : Option String)
    (customGen : Option (Option Bytes → Bytes → Bytes → Bytes × Bytes))
    (sharedSecret : Option Bytes) (s1 ephemBuffer : Bytes) :
    Except JsError (Bytes × Bytes) :=
  match customGen with
  | some g => .ok (g sharedSecret s1 ephemBuffer)
  | none =>
    match sharedSecret with
    | none => .error (.typeError concatUndefinedMsg)
    | some ss =>
      match generateMessageHash P hashCypherType (ss ++ s1 ++ ephemBuffer) with
      | .error e => .error e
      | .ok hash =>
        .ok (hash.take (hash.length / 2), hash.drop (hash.length / 2))

/-- MAC step shared verbatim by encrypt and decrypt (src lines 488-499 and
564-575): a custom MAC generator bypasses the default; otherwise an HMAC
over ciphertext and s2. -/
def macCompute (P : CryptoPrims) (macCipherType : Option String)
    (customMac : Option (Bytes → Bytes → Bytes → Bytes))
    (macKey s2 cipherText : Bytes) : Except JsError Bytes :=
  match customMac with
  | some g => .ok (g macKey s2 cipherText)
  | none => generateMessageMac P macCipherType macKey (cipherText ++ s2)

/-- Perform symmetric encryption (src symmetricEncrypt, lines 296-316): an
undefined iv selects the deprecated createCipher path, a null iv is replaced
by the empty buffer, otherwise createCipheriv uses the given iv. -/
def symmetricEncrypt (P : CryptoPrims) (cypherName : String) (iv : IvArg)
    (key plaintext : Bytes) : Bytes :=
  match iv with
  | .undef => P.cipherLegacy cypherName key plaintext
  | .null => P.cipherIv cypherName key [] plaintext
  | .bytes b => P.cipherIv cypherName key b plaintext

/-- Perform symmetric decryption (src symmetricDecrypt, lines 319-339),
mirroring symmetricEncrypt. -/
def symmetricDecrypt (P : CryptoPrims) (cypherName : String) (iv : IvArg)
    (key ciphertext : Bytes) : Bytes :=
  match iv with
  | .undef => P.decipherLegacy cypherName key ciphertext
  | .null => P.decipherIv cypherName key [] ciphertext
  | .bytes b => P.decipherIv cypherName key b ciphertext

/-! ### Single-recipient engine -/

/-- The iv stored in the envelope: the composed iv hex-encoded when it is a
non-empty buffer (isNullOrEmpty is true for undefined, null and an empty
buffer), otherwise null. -/
def ivEnvelopeField : IvArg → Option Str
  | .bytes b => if b ≠ [] then some (hexEncode b) else none
  | _ => none

/-- ECDH encryption using publicKey (src encryptWithPublicKey, lines
451-514).  The ephemeral private key is an explicit argument standing for
the fresh randomness the curve layer draws.  The function first destructures
customAsymScheme (throwing a TypeError when the argument is absent), then
composes options, agrees as sender, derives keys, encrypts, MACs and
assembles the envelope, attaching the resolved scheme when it is truthy. -/
def encryptWithPublicKey (P : CryptoPrims) (ephemPriv : Bytes)
    (publicKey : Str) (plainText : Str) (options : Option EciesOptions)
    (customAsymScheme : Option CustomAsymmetricScheme) :
    Except JsError AsymmetricEncryptedData :=
  match customAsymScheme with
  | none => .error (.typeError destructureMsg)
  | some cas =>
    let useOptions := composeOptions options
    let publicKeyBuffer := hexDecodeLoose publicKey
    match generateSharedSecretAndEphemPublicKey P ephemPriv publicKeyBuffer
        useOptions.curveType useOptions.keyFormat with
    | .error e => .error e
    | .ok (ephemPublicKey, sharedSecret) =>
      let ephemBuffer := bufferFromHex ephemPublicKey
      match kdfKeys P useOptions.hashCypherType cas.customMessageKeyGenerator
          (some sharedSecret) useOptions.s1 ephemBuffer with
      | .error e => .error e
      | .ok (cipherKey, macKey) =>
        let cipherText :=
          symmetricEncrypt P useOptions.symmetricCypherType useOptions.iv
            cipherKey plainText
        match macCompute P useOptions.macCipherType cas.customMacGenerator
            macKey useOptions.s2 cipherText with
        | .error e => .error e
        | .ok mac =>
          .ok { iv := ivEnvelopeField useOptions.iv
                publicKey := publicKey
                ephemPublicKey := hexEncode (bufferFromPlain ephemPublicKey)
                ciphertext := hexEncode cipherText
                mac := hexEncode mac
                scheme := truthy (resolvedScheme cas useOptions) }

/-- Tail of decryptWithPrivateKey after the scheme check (src lines
547-584): key derivation, MAC recomputation, constant-time comparison and
symmetric decryption.  Factored out only because the scheme check has two
fall-through branches; the code is the direct continuation of the source. -/
def decryptAfterSchemeCheck (P : CryptoPrims) (cas : CustomAsymmetricScheme)
    (useOptions : EciesOptionsAsBuffers) (gen : SharedSecretResult)
    (ephemBuffer mac iv cipherText : Bytes) : Except JsError Str :=
  match kdfKeys P useOptions.hashCypherType cas.customMessageKeyGenerator
      gen.sharedSecret useOptions.s1 ephemBuffer with
  | .error e => .error e
  | .ok (cipherKey, macKey) =>
    match macCompute P useOptions.macCipherType cas.customMacGenerator
        macKey useOptions.s2 cipherText with
    | .error e => .error e
    | .ok compareMac =>
      if ¬ equalConstTime mac compareMac then
        .error (.error macMismatchMsg)
      else
        .ok (symmetricDecrypt P useOptions.symmetricCypherType (.bytes iv)
          cipherKey cipherText)

/-- ECDH decryption using privateKey (src decryptWithPrivateKey, lines
517-585).  ensureEncryptedValueIsObject (from genericCryptoHelpers, not
under src/) is modelled as the identity on an already-parsed envelope
object.  The decryption iv comes only from the envelope iv field, an empty
buffer when that field is null or empty.  Order of effects follows the
source: destructure the custom scheme, compose options, decode fields,
agree as receiver, check the envelope scheme against the resolved scheme,
derive keys, recompute and compare the MAC in constant time, and only then
decrypt. -/
def decryptWithPrivateKey (P : CryptoPrims)
    (encrypted : AsymmetricEncryptedData) (privateKey : Str)
    (options : Option EciesOptions)
    (customAsymScheme : Option CustomAsymmetricScheme) :
    Except JsError Str :=
  match customAsymScheme with
  | none => .error (.typeError destructureMsg)
  | some cas =>
    let useOptions := composeOptions options
    let encryptedObject := encrypted
    let cipherText := hexDecodeLoose encryptedObject.ciphertext
    let iv : Bytes :=
      match encryptedObject.iv with
      | some s => if s ≠ [] then hexDecodeLoose s else []
      | none => []
    let mac := hexDecodeLoose encryptedObject.mac
    let privateKeyBuffer := hexDecodeLoose privateKey
    match generateSharedSecretUsingPrivateKey P privateKeyBuffer
        encryptedObject.ephemPublicKey useOptions.curveType with
    | .error e => .error e
    | .ok gen =>
      let ephemBuffer := hexDecodeLoose encryptedObject.ephemPublicKey
      let scheme := resolvedScheme cas useOptions
      match truthy encryptedObject.scheme with
      | some envScheme =>
        if scheme ≠ some envScheme then
          .error (.error (schemeMismatchMsg scheme envScheme))
        else
          decryptAfterSchemeCheck P cas useOptions gen ephemBuffer mac iv cipherText
      | none =>
        decryptAfterSchemeCheck P cas useOptions gen ephemBuffer mac iv cipherText

/-! ### Signing (src sign and verifySignedWithPublicKey, lines 588-603)

createSha256Hash, utf8StringToHexString and byteArrayToHexString live in
the helpers module, which is not under src/; they are modelled from the
spec (hash-then-sign with a fixed hash function, hex-string signatures). -/

/-- Modelled from the spec: utf8StringToHexString from helpers (not under
src/): hex encoding of the utf8 bytes of the value. -/
def utf8StringToHexString (value : Str) : Str := hexEncode value

/-- Modelled from the spec: createSha256Hash from helpers (not under src/):
hex digest of the sha256 hash of the utf8 bytes of the input string. -/
def createSha256Hash (P : CryptoPrims) (value : Str) : Str :=
  hexEncode (P.hash "sha256" value)

/-- The digest both sign and verifySignedWithPublicKey compute: the value is
converted to a hex string, hashed, and the hex digest decoded back to
bytes. -/
def signDigest (P : CryptoPrims) (value : Str) : Bytes :=
  hexDecodeLoose (createSha256Hash P (utf8StringToHexString value))

/-- Signs a string using the private key and returns a hex-string signature
(src sign; the Promise wrapper is dropped). -/
def sign (P : CryptoPrims) (value : Str) (privateKey : Str) : Str :=
  hexEncode (P.ecdsaSign (signDigest P value) (hexDecodeLoose privateKey))

/-- Verifies the signature for the string and returns true if verification
succeeded (src verifySignedWithPublicKey). -/
def verifySignedWithPublicKey (P : CryptoPrims) (value : Str)
    (publicKey : Str) (signature : Str) : Bool :=
  P.ecdsaVerify (hexDecodeLoose signature) (signDigest P value)
    (hexDecodeLoose publicKey)

/-! ### Envelope serialization

The onion engine serializes each stage envelope (JSON.stringify in the
source tree, which is not under src/).  Modelled from the spec: the exact
text format is irrelevant to the layering contract, so an injective,
executably invertible encoding with all envelope fields is used: unary
length-prefixed segments. -/

/-- Length-prefixed byte-string segment: a unary length in 1-bytes, a 0
marker, then the payload. -/
def encStr (s : Str) : Str := List.replicate s.length 1 ++ 0 :: s

/-- Parse one segment, returning payload and remainder. -/
def parseStr (x : Str) : Option (Str × Str) :=
  let n := (x.takeWhile (fun b => b ≠ 0)).length
  match x.drop n with
  | 0 :: rest => if n ≤ rest.length then some (rest.take n, rest.drop n) else none
  | _ => none

/-- Optional segment: 0 for an absent field, 1 then a segment for a present
one. -/
def encOpt (f : Option Str) : Str :=
  match f with
  | none => [0]
  | some s => 1 :: encStr s

/-- Parse an optional segment. -/
def parseOpt (x : Str) : Option (Option Str × Str) :=
  match x with
  | 0 :: rest => some (none, rest)
  | 1 :: rest => (parseStr rest).map (fun p => (some p.1, p.2))
  | _ => none

/-- Code-unit sequence of a scheme name. -/
def strBytes (s : String) : Str := s.toList.map Char.toNat

/-- Scheme name from its code-unit sequence. -/
def bytesStr (l : Str) : String := String.mk (l.map Char.ofNat)

/-- Modelled from the spec: the serialized text form of an envelope (the
stringified JSON object callers pass between onion layers). -/
def serializeEnvelope (e : AsymmetricEncryptedData) : Str :=
  encOpt e.iv ++ encStr e.publicKey ++ encStr e.ephemPublicKey ++
    encStr e.ciphertext ++ encStr e.mac ++ encOpt (e.scheme.map strBytes)

/-- Modelled from the spec: defensive parse of a serialized envelope back to
the object form, none on any malformed input. -/
def parseEnvelope (x : Str) : Option AsymmetricEncryptedData := do
  let (iv, r1) ← parseOpt x
  let (publicKey, r2) ← parseStr r1
  let (ephemPublicKey, r3) ← parseStr r2
  let (ciphertext, r4) ← parseStr r3
  let (mac, r5) ← parseStr r4
  let (scheme, r6) ← parseOpt r5
  if r6 = [] then
    some ⟨iv, publicKey, ephemPublicKey, ciphertext, mac, scheme.map bytesStr⟩
  else none

/-! ### Multi-recipient (onion) engine

encryptWithPublicKeys and decryptWithPrivateKeys are re-exported by
ChainEosV2 but implemented outside src/; both are modelled from the spec
(section 4.5): sequential wrapping where each stage serialized envelope is
the next stage plaintext, and unwrapping that walks the private-key array
back to front. -/

/-- Modelled from the spec: the sequential wrapping loop of
encryptWithPublicKeys.  Each stage consumes one ephemeral private key and
one recipient public key; the serialized envelope becomes the next stage
plaintext, and all intermediate envelopes are returned in order. -/
def encryptWithPublicKeysGo (P : CryptoPrims)
    (stages : List (Bytes × Str)) (value : Str)
    (options : Option EciesOptions)
    (cas : Option CustomAsymmetricScheme) :
    Except JsError (List AsymmetricEncryptedData) :=
  match stages with
  | [] => .ok []
  | (ephemPriv, publicKey) :: rest =>
    match encryptWithPublicKey P ephemPriv publicKey value options cas with
    | .error err => .error err
    | .ok env =>
      match encryptWithPublicKeysGo P rest (serializeEnvelope env) options cas with
      | .error err => .error err
      | .ok envs => .ok (env :: envs)

/-- Modelled from the spec: encryptWithPublicKeys (not under src/), applying
single-recipient encryption sequentially, keyed by the public keys in the
order supplied; the last returned element is the fully wrapped result. -/
def encryptWithPublicKeys (P : CryptoPrims) (ephemPrivs : List Bytes)
    (plaintext : Str) (publicKeys : List Str)
    (options : Option EciesOptions)
    (cas : Option CustomAsymmetricScheme) :
    Except JsError (List AsymmetricEncryptedData) :=
  encryptWithPublicKeysGo P (ephemPrivs.zip publicKeys) plaintext options cas

/-- Modelled from the spec: the unwrap loop of decryptWithPrivateKeys; each
step parses the current value as an envelope and decrypts it with the next
key of the already-reversed key list. -/
def decryptWithPrivateKeysGo (P : CryptoPrims) (value : Str)
    (keys : List Str) (options : Option EciesOptions)
    (cas : Option CustomAsymmetricScheme) : Except JsError Str :=
  match keys with
  | [] => .ok value
  | k :: rest =>
    match parseEnvelope value with
    | none => .error (.error "Not valid asymmetric encrypted data string")
    | some env =>
      match decryptWithPrivateKey P env k options cas with
      | .error err => .error err
      | .ok plain => decryptWithPrivateKeysGo P plain rest options cas

/-- Modelled from the spec: decryptWithPrivateKeys (not under src/),
unwrapping the envelope with the private keys in reverse of the order they
were supplied (the caller supplies them in encryption order). -/
def decryptWithPrivateKeys (P : CryptoPrims)
    (envelope : AsymmetricEncryptedData) (privateKeys : List Str)
    (options : Option EciesOptions)
    (cas : Option CustomAsymmetricScheme) : Except JsError Str :=
  decryptWithPrivateKeysGo P (serializeEnvelope envelope) privateKeys.reverse
    options cas

/-! ### Library lemmas: hex codec and constant-time comparison -/

theorem hexDigitVal_hexValDigit : ∀ n < 16, hexDigitVal (hexValDigit n) = some n := by
  decide

theorem hexValDigit_lt (n : Nat) (h : n < 16) : hexValDigit n < 256 := by
  unfold hexValDigit; split <;> omega

/-- Every character hexEncode produces is an ASCII code below 256. -/
theorem hexEncode_mem_lt (l : Bytes) : ∀ c ∈ hexEncode l, c < 256 := by
  intro c hc
  unfold hexEncode at hc
  simp only [List.mem_flatMap] at hc
  obtain ⟨x, _, hx⟩ := hc
  simp only [List.mem_cons, List.mem_singleton] at hx
  rcases hx with h | h | h
  · subst h; exact hexValDigit_lt _ (Nat.mod_lt _ (by omega))
  · subst h; exact hexValDigit_lt _ (Nat.mod_lt _ (by omega))
  · cases h

/-- Hex decoding inverts hex encoding on byte-valued sequences. -/
theorem hexDecodeLoose_hexEncode (l : Bytes) (h : ∀ b ∈ l, b < 256) :
    hexDecodeLoose (hexEncode l) = l := by
  induction l with
  | nil => rfl
  | cons b rest ih =>
    have hb : b < 256 := h b (List.mem_cons_self b rest)
    have h1 : b / 16 % 16 < 16 := Nat.mod_lt _ (by omega)
    have h2 : b % 16 < 16 := Nat.mod_lt _ (by omega)
    have hrest : ∀ x ∈ rest, x < 256 := fun x hx => h x (List.mem_cons_of_mem _ hx)
    show hexDecodeLoose
        (hexValDigit (b / 16 % 16) :: hexValDigit (b % 16) :: hexEncode rest) = b :: rest
    unfold hexDecodeLoose
    rw [hexDigitVal_hexValDigit _ h1, hexDigitVal_hexValDigit _ h2]
    simp only [ih hrest]
    congr 1
    omega

/-- hexEncode is injective on byte-valued sequences. -/
theorem hexEncode_inj (l1 l2 : Bytes) (h1 : ∀ b ∈ l1, b < 256)
    (h2 : ∀ b ∈ l2, b < 256) (h : hexEncode l1 = hexEncode l2) : l1 = l2 := by
  have := congrArg hexDecodeLoose h
  rwa [hexDecodeLoose_hexEncode l1 h1, hexDecodeLoose_hexEncode l2 h2] at this

theorem nat_or_eq_zero (a b : Nat) : a ||| b = 0 ↔ a = 0 ∧ b = 0 := by
  constructor
  · intro h
    constructor
    · apply Nat.eq_of_testBit_eq
      intro i
      have h2 := congrArg (fun x => x.testBit i) h
      simp [Nat.testBit_or] at h2
      simp [h2.1]
    · apply Nat.eq_of_testBit_eq
      intro i
      have h2 := congrArg (fun x => x.testBit i) h
      simp [Nat.testBit_or] at h2
      simp [h2.2]
  · rintro ⟨rfl, rfl⟩; rfl

theorem foldl_or_xor_eq_zero (l : List (Nat × Nat)) (a : Nat) :
    l.foldl (fun r p => r ||| (p.1 ^^^ p.2)) a = 0 ↔
      a = 0 ∧ ∀ p ∈ l, p.1 = p.2 := by
  induction l generalizing a with
  | nil => simp
  | cons p rest ih =>
    simp only [List.foldl_cons, ih, nat_or_eq_zero, Nat.xor_eq_zero,
      List.mem_cons]
    constructor
    · rintro ⟨⟨ha, hp⟩, hrest⟩
      exact ⟨ha, fun q hq => by rcases hq with rfl | hq; exact hp; exact hrest q hq⟩
    · rintro ⟨ha, hall⟩
      exact ⟨⟨ha, hall p (Or.inl rfl)⟩, fun q hq => hall q (Or.inr hq)⟩

theorem zip_pointwise_eq (b1 b2 : Bytes) (hlen : b1.length = b2.length) :
    (∀ p ∈ b1.zip b2, p.1 = p.2) ↔ b1 = b2 := by
  induction b1 generalizing b2 with
  | nil =>
    cases b2
    · simp
    · simp at hlen
  | cons x xs ih =>
    cases b2 with
    | nil => simp at hlen
    | cons y ys =>
      simp only [List.length_cons, Nat.succ.injEq] at hlen
      simp only [List.zip_cons_cons, List.mem_cons, List.cons.injEq]
      constructor
      · intro h
        exact ⟨h (x, y) (Or.inl rfl), (ih ys hlen).mp fun p hp => h p (Or.inr hp)⟩
      · rintro ⟨rfl, rfl⟩
        intro p hp
        rcases hp with rfl | hp
        · rfl
        · exact ((ih xs rfl).mpr rfl) p hp

/-- equalConstTime is true exactly on equal buffers. -/
theorem equalConstTime_eq_true_iff (b1 b2 : Bytes) :
    equalConstTime b1 b2 = true ↔ b1 = b2 := by
  unfold equalConstTime
  split
  · rename_i hne
    constructor
    · intro h; cases h
    · intro h; subst h; exact absurd rfl hne
  · rename_i hlen
    rw [not_ne_iff] at hlen
    rw [beq_iff_eq, foldl_or_xor_eq_zero]
    constructor
    · rintro ⟨-, h⟩
      exact (zip_pointwise_eq b1 b2 hlen).mp h
    · intro h
      exact ⟨rfl, (zip_pointwise_eq b1 b2 hlen).mpr h⟩

theorem equalConstTime_self (b : Bytes) : equalConstTime b b = true :=
  (equalConstTime_eq_true_iff b b).mpr rfl

theorem foldl_count (l : List (Nat × Nat)) (a : Nat) :
    l.foldl (fun c _ => c + 1) a = a + l.length := by
  induction l generalizing a with
  | nil => simp
  | cons p rest ih => simp [List.foldl_cons, ih]; omega

/-- C8: the MAC comparison equalConstTime returns true exactly on
byte-for-byte identical buffers of equal length, and its loop (a running
bitwise OR of XORs reduced to one boolean, with no early exit) always
performs one iteration per byte pair whenever the lengths are equal,
independent of where any mismatch occurs. -/
theorem equalConstTime_correct_and_constant_time (b1 b2 : Bytes) :
    (equalConstTime b1 b2 = true ↔ b1 = b2) ∧
      (b1.length = b2.length → equalConstTimeSteps b1 b2 = b1.length) := by
  refine ⟨equalConstTime_eq_true_iff b1 b2, fun hlen => ?_⟩
  unfold equalConstTimeSteps
  rw [if_neg (by omega), foldl_count, List.length_zip, hlen, Nat.min_self]
  omega

/-- Witness for C8 at concrete buffers. -/
theorem equalConstTime_correct_and_constant_time_witness :
    (equalConstTime [1, 2, 3] [1, 2, 4] = true ↔ [1, 2, 3] = [1, 2, 4]) ∧
      ([1, 2, 3].length = [1, 2, 4].length →
        equalConstTimeSteps [1, 2, 3] [1, 2, 4] = [1, 2, 3].length) :=
  equalConstTime_correct_and_constant_time [1, 2, 3] [1, 2, 4]

/-! ### Well-behaved primitives -/

/-- Properties of the external primitives that the round-trip statements
assume: the symmetric decipher inverts the cipher on byte-valued data, the
library outputs are byte-valued, and the ECDH agreement is symmetric
(shared a (pub b) equals shared b (pub a) for a fixed key format). -/
structure GoodPrims (P : CryptoPrims) : Prop where
  decEnc : ∀ n k iv d, (∀ b ∈ d, b < 256) →
    P.decipherIv n k iv (P.cipherIv n k iv d) = d
  encBytes : ∀ n k iv d, ∀ b ∈ P.cipherIv n k iv d, b < 256
  hmacBytes : ∀ n k m, ∀ b ∈ P.hmac n k m, b < 256
  secpPubBytes : ∀ fmt p, ∀ b ∈ P.secpPub fmt p, b < 256
  dhSym : ∀ fmt a c, P.secpShared a (P.secpPub fmt c) = P.secpShared c (P.secpPub fmt a)

/-- The toy primitives are well-behaved. -/
theorem toyPrims_good : GoodPrims toyPrims := by
  constructor
  · intro n k iv d hd
    simp only [toyPrims, List.map_map]
    have hcongr : ∀ b ∈ d,
        ((fun b => (b + (256 - (k.sum + iv.sum) % 256)) % 256) ∘
          (fun b => (b + k.sum + iv.sum) % 256)) b = b := by
      intro b hb
      have := hd b hb
      simp only [Function.comp_apply]
      omega
    calc d.map _ = d.map id := List.map_congr_left hcongr
    _ = d := List.map_id d
  · intro n k iv d b hb
    simp only [toyPrims, List.mem_map] at hb
    obtain ⟨x, -, rfl⟩ := hb
    exact Nat.mod_lt _ (by omega)
  · intro n k m b hb
    simp only [toyPrims, List.mem_map] at hb
    obtain ⟨x, -, rfl⟩ := hb
    exact Nat.mod_lt _ (by omega)
  · intro fmt p b hb
    simp only [toyPrims, List.mem_singleton] at hb
    subst hb
    have : 3 ^ p.sum % 251 < 251 := Nat.mod_lt _ (by omega)
    omega
  · intro fmt a c
    simp only [toyPrims, List.sum_cons, List.sum_nil, Nat.add_zero]
    rw [← Nat.pow_mod, ← Nat.pow_mod, ← Nat.pow_mul, ← Nat.pow_mul,
      Nat.mul_comm]

/-! ### C9: absent custom-scheme argument -/

/-- C9: calling either entry point without the customAsymScheme argument
fails immediately with the TypeError raised by destructuring undefined; the
result is the same for every primitive implementation, every options value
and every other argument, so no options composition and no cryptographic
work can have taken place, and supplying (at least) an empty configuration
object is what lets a call proceed past this point. -/
theorem entryPoints_require_customAsymScheme (P : CryptoPrims)
    (ephemPriv : Bytes) (publicKey plainText privateKey : Str)
    (env : AsymmetricEncryptedData) (options : Option EciesOptions) :
    encryptWithPublicKey P ephemPriv publicKey plainText options none =
        .error (.typeError destructureMsg) ∧
      decryptWithPrivateKey P env privateKey options none =
        .error (.typeError destructureMsg) :=
  ⟨rfl, rfl⟩

/-! ### C10: the decryption iv comes only from the envelope -/

/-- C10: two decryption calls on the same envelope, private key and custom
scheme whose options differ only in the iv field produce identical results
(the same plaintext or the same error): the decryption iv is derived from
the envelope iv field alone, never from the caller-supplied options iv. -/
theorem decrypt_ignores_options_iv (P : CryptoPrims)
    (env : AsymmetricEncryptedData) (privateKey : Str)
    (cas : Option CustomAsymmetricScheme) (o : EciesOptions)
    (iv1 iv2 : IvIn) :
    decryptWithPrivateKey P env privateKey (some { o with iv := iv1 }) cas =
      decryptWithPrivateKey P env privateKey (some { o with iv := iv2 }) cas := by
  obtain ⟨f1, f2, f3, f4, f5, f6, f7, f8, f9⟩ := o
  rcases f4 with _ | f4
  · rfl
  · rcases f4 with _ | c <;> rfl

/-! ### Concrete fixtures -/

/-- Options selecting the ed25519 curve, other fields default. -/
def edOpts : EciesOptions := { curveType := some (some "ed25519") }

/-- The envelope encryptWithPublicKey produces with the toy primitives for
plaintext hi, ephemeral private key 02, recipient public key the x25519
public key of 03, over ed25519 with default ciphers. -/
def c1EdEnvelope : AsymmetricEncryptedData :=
  { iv := none
    publicKey := [53, 99]
    ephemPublicKey := [52, 100, 53, 49, 51, 100, 51, 100]
    ciphertext := [54, 56, 54, 57]
    mac := [48, 49, 48, 50, 98, 53, 54, 56, 54, 57]
    scheme := some "asym.chainjs.ed25519" }

/-- C1 (code bug): over ed25519, decrypting what encryptWithPublicKey
itself produced for a matching key pair fails with the AuthenticationFailed
(mac does not match) error instead of returning the plaintext.  The sender
(src line 465) feeds Buffer.from(ephemPublicKey, hex) into the KDF - a
truncated hex-parse of the base64 ephemeral key string - while the receiver
(src line 535) feeds the utf8 bytes of that base64 string, so the derived
MAC keys can never agree. -/
theorem ed25519_roundtrip_fails :
    encryptWithPublicKey toyPrims [2] (hexEncode (toyPrims.edPub [3]))
        [104, 105] (some edOpts) (some emptyScheme) = .ok c1EdEnvelope ∧
      decryptWithPrivateKey toyPrims c1EdEnvelope (hexEncode [3])
        (some edOpts) (some emptyScheme) = .error (.error macMismatchMsg) := by
  constructor <;> rfl

/-- Envelope carrying a scheme that does not match the resolved ed25519
default, with an ephemeral-public-key field whose bytes are not valid
base64. -/
def c3Envelope : AsymmetricEncryptedData :=
  { iv := none
    publicKey := []
    ephemPublicKey := hexEncode [33, 33, 33]
    ciphertext := [48, 49]
    mac := [48, 49]
    scheme := some "asym.chainjs.secp256k1" }

/-- C3 (counterexample): a mismatched envelope scheme does not always fail
with SchemeMismatch before cryptographic work - receiver-side key agreement
runs first, and here its base64 decoding error preempts the scheme check:
the envelope scheme is present and differs from the resolved scheme, yet the
call fails with the invalid-encoding TypeError, not with SchemeMismatch. -/
theorem schemeMismatch_not_before_key_agreement :
    truthy c3Envelope.scheme = some "asym.chainjs.secp256k1" ∧
      resolvedScheme emptyScheme (composeOptions (some edOpts)) =
        some DEFAULT_ED25519_ASYMMETRIC_SCHEME_NAME ∧
      some DEFAULT_ED25519_ASYMMETRIC_SCHEME_NAME ≠
        (some "asym.chainjs.secp256k1" : Option String) ∧
      decryptWithPrivateKey toyPrims c3Envelope (hexEncode [3]) (some edOpts)
          (some emptyScheme) = .error (.typeError invalidEncodingMsg) ∧
      (JsError.typeError invalidEncodingMsg) ≠
        .error (schemeMismatchMsg (some DEFAULT_ED25519_ASYMMETRIC_SCHEME_NAME)
          "asym.chainjs.secp256k1") := by
  refine ⟨rfl, rfl, by decide, rfl, by decide⟩

/-- C4 (counterexample): for the unrecognized curve tag p256 the
receiver-side key agreement does not fail with the UnsupportedCurve error;
it returns successfully with both result fields undefined. -/
theorem receiver_no_unsupportedCurve_error :
    generateSharedSecretUsingPrivateKey toyPrims [1] [48, 49] (some "p256") =
        .ok ⟨none, none⟩ ∧
      (Except.ok ⟨none, none⟩ : Except JsError SharedSecretResult) ≠
        .error (.error notSupportedCurveMsg) := by
  refine ⟨rfl, by simp⟩

/-- C6 (counterexample): altering a single byte of the hex signature string
(the final hex digit b changed to its uppercase B) yields a different
signature string that still verifies as true, because node hex decoding is
case-insensitive and both strings decode to the same signature bytes. -/
theorem verify_true_on_case_flipped_signature :
    sign toyPrims [97] (hexEncode [171]) = [51, 54, 51, 49, 97, 98] ∧
      [51, 54, 51, 49, 97, 66] ≠ [51, 54, 51, 49, 97, 98] ∧
      verifySignedWithPublicKey toyPrims [97]
        (hexEncode (toyPrims.sigPub [171])) [51, 54, 51, 49, 97, 66] = true := by
  refine ⟨rfl, by decide, rfl⟩

/-- Options with a caller-supplied iv and the symmetricCypherType key
entirely absent. -/
def c7Options : EciesOptions := { iv := .str [48, 49] }

/-- C7 (counterexample): when the symmetricCipherType key is absent (the
common way to leave it unset), the default cipher is substituted by the
object spread but the caller-supplied iv is still honored: the composed iv
is the hex-parse of the supplied string, not the iv derived from the
cipher type. -/
theorem composeOptions_absent_cipher_keeps_caller_iv :
    (composeOptions (some c7Options)).symmetricCypherType =
        defaultSymmetricCypherType ∧
      (composeOptions (some c7Options)).iv = .bytes [1] ∧
      IvArg.bytes [1] ≠ .bytes (emptyBufferForIv defaultSymmetricCypherType) := by
  refine ⟨rfl, rfl, by decide⟩

/-! ### C2: MAC mismatch blocks decryption -/

/-- C2: whenever the stored mac differs from the MAC recomputed at decrypt
time from the re-derived keys over ciphertext and s2 (the agreement, scheme
check, key-derivation and MAC hypotheses state exactly the values the
function itself computes along the way), decryptWithPrivateKey fails with
the AuthenticationFailed (mac does not match) error - and it does so for
every implementation of the symmetric decipher primitives, so symmetric
decryption is never consulted and no plaintext, full or partial, is
returned. -/
theorem mac_mismatch_fails_authentication (P : CryptoPrims)
    (env : AsymmetricEncryptedData) (privateKey : Str)
    (options : Option EciesOptions) (cas : CustomAsymmetricScheme)
    (gen : SharedSecretResult) (ck mk cm : Bytes)
    (hgen : generateSharedSecretUsingPrivateKey P (hexDecodeLoose privateKey)
      env.ephemPublicKey (composeOptions options).curveType = .ok gen)
    (hsch : ∀ s, truthy env.scheme = some s →
      resolvedScheme cas (composeOptions options) = some s)
    (hkdf : kdfKeys P (composeOptions options).hashCypherType
      cas.customMessageKeyGenerator gen.sharedSecret
      (composeOptions options).s1 (hexDecodeLoose env.ephemPublicKey) =
      .ok (ck, mk))
    (hmac : macCompute P (composeOptions options).macCipherType
      cas.customMacGenerator mk (composeOptions options).s2
      (hexDecodeLoose env.ciphertext) = .ok cm)
    (hne : hexDecodeLoose env.mac ≠ cm) :
    ∀ f g,
      decryptWithPrivateKey
        { P with decipherIv := f, decipherLegacy := g } env privateKey
        options (some cas) = .error (.error macMismatchMsg) := by
  intro f g
  have e1 : generateSharedSecretUsingPrivateKey
      { P with decipherIv := f, decipherLegacy := g } = generateSharedSecretUsingPrivateKey P := rfl
  have e2 : kdfKeys { P with decipherIv := f, decipherLegacy := g } = kdfKeys P := rfl
  have e3 : macCompute { P with decipherIv := f, decipherLegacy := g } = macCompute P := rfl
  have hect : ¬ equalConstTime (hexDecodeLoose env.mac) cm = true :=
    fun h => hne ((equalConstTime_eq_true_iff _ _).mp h)
  simp only [decryptWithPrivateKey, e1, hgen]
  rcases hts : truthy env.scheme with _ | s
  · simp only [decryptAfterSchemeCheck, e2, hkdf, e3, hmac]
    rw [if_pos hect]
  · dsimp only
    rw [if_neg (by rw [hsch s hts]; exact fun h => h rfl)]
    simp only [decryptAfterSchemeCheck, e2, hkdf, e3, hmac]
    rw [if_pos hect]

/-- Envelope for the C2 witness: the valid toy secp256k1 envelope with its
mac replaced. -/
def w2Env : AsymmetricEncryptedData :=
  { iv := none, publicKey := [49, 98], ephemPublicKey := [48, 57],
    ciphertext := [52, 98, 52, 99], mac := [48, 48], scheme := none }

/-- Witness for C2 at a concrete tampered envelope (the primitive record
update with its own fields is definitionally toyPrims itself). -/
theorem mac_mismatch_fails_authentication_witness :
    decryptWithPrivateKey toyPrims w2Env (hexEncode [3])
      none (some emptyScheme) = .error (.error macMismatchMsg) :=
  mac_mismatch_fails_authentication toyPrims w2Env (hexEncode [3]) none
    emptyScheme ⟨some [9], some [227]⟩ [227] [9] [1, 2, 9, 75, 76]
    rfl (by intro s h; simp [w2Env, truthy] at h) rfl rfl (by decide)
    toyPrims.decipherIv toyPrims.decipherLegacy

/-! ### C3 (amended): scheme mismatch fails after key agreement but before
key derivation, MAC computation and decryption -/

/-- C3 (amended): whenever the envelope carries a scheme differing from the
resolved scheme (override, else options scheme, else curve default) and the
receiver-side key agreement - which the source runs first - succeeds, the
call fails with the SchemeMismatch error.  The statement holds for every
primitive implementation and every stored mac, so key derivation, MAC
computation and decryption cannot influence the outcome: the check precedes
them, even though it follows key agreement. -/
theorem schemeMismatch_blocks_decrypt (P : CryptoPrims)
    (env : AsymmetricEncryptedData) (privateKey : Str)
    (options : Option EciesOptions) (cas : CustomAsymmetricScheme)
    (gen : SharedSecretResult) (envScheme : String)
    (hgen : generateSharedSecretUsingPrivateKey P (hexDecodeLoose privateKey)
      env.ephemPublicKey (composeOptions options).curveType = .ok gen)
    (hts : truthy env.scheme = some envScheme)
    (hmm : resolvedScheme cas (composeOptions options) ≠ some envScheme) :
    decryptWithPrivateKey P env privateKey options (some cas) =
      .error (.error (schemeMismatchMsg
        (resolvedScheme cas (composeOptions options)) envScheme)) := by
  simp only [decryptWithPrivateKey, hgen, hts]
  rw [if_pos hmm]

/-- Envelope for the C3 witness: valid secp256k1 agreement but a wrong
scheme name. -/
def w3Env : AsymmetricEncryptedData :=
  { iv := none, publicKey := [], ephemPublicKey := hexEncode [7],
    ciphertext := [48, 49], mac := [48, 49], scheme := some "wrong" }

/-- Witness for the amended C3 at a concrete mismatching envelope. -/
theorem schemeMismatch_blocks_decrypt_witness :
    decryptWithPrivateKey toyPrims w3Env (hexEncode [3]) none
      (some emptyScheme) =
      .error (.error (schemeMismatchMsg
        (resolvedScheme emptyScheme (composeOptions none)) "wrong")) :=
  schemeMismatch_blocks_decrypt toyPrims w3Env (hexEncode [3]) none
    emptyScheme ⟨some [7], some [92]⟩ "wrong" rfl rfl (by decide)

/-! ### C4 (amended): unsupported curve tags -/

/-- C4 (amended): for every curve tag other than secp256k1 and ed25519 the
sender-side key agreement fails with the UnsupportedCurve (Not supported
CurveType) error, but the receiver-side key agreement does not: it returns
successfully with both fields undefined, and a decryption call on such a
curve (without a custom key generator and with no envelope scheme) fails
later, inside key derivation, with the Buffer.concat TypeError - not with
UnsupportedCurve. -/
theorem unsupported_curve_paths (P : CryptoPrims)
    (ephemPriv publicKey privateKeyBuf : Bytes) (ephemStr : Str)
    (keyFormat : Option String) (ct : Option String)
    (h1 : ct ≠ some "secp256k1") (h2 : ct ≠ some "ed25519")
    (env : AsymmetricEncryptedData) (privateKey : Str)
    (options : Option EciesOptions) (cas : CustomAsymmetricScheme)
    (hct : (composeOptions options).curveType = ct)
    (hs : truthy env.scheme = none)
    (hg : cas.customMessageKeyGenerator = none) :
    generateSharedSecretAndEphemPublicKey P ephemPriv publicKey ct keyFormat =
        .error (.error notSupportedCurveMsg) ∧
      generateSharedSecretUsingPrivateKey P privateKeyBuf ephemStr ct =
        .ok ⟨none, none⟩ ∧
      decryptWithPrivateKey P env privateKey options (some cas) =
        .error (.typeError concatUndefinedMsg) := by
  have hrecv : ∀ pk es, generateSharedSecretUsingPrivateKey P pk es ct =
      .ok ⟨none, none⟩ := by
    intro pk es
    unfold generateSharedSecretUsingPrivateKey
    rw [if_neg h1, if_neg h2]
  refine ⟨?_, hrecv _ _, ?_⟩
  · unfold generateSharedSecretAndEphemPublicKey
    rw [if_neg h1, if_neg h2]
  · simp only [decryptWithPrivateKey, hct, hrecv, hs]
    simp only [decryptAfterSchemeCheck, kdfKeys, hg]

/-- Witness for the amended C4 at the concrete curve tag p256. -/
theorem unsupported_curve_paths_witness :
    generateSharedSecretAndEphemPublicKey toyPrims [2] [9] (some "p256")
        (some "uncompressed") = .error (.error notSupportedCurveMsg) ∧
      generateSharedSecretUsingPrivateKey toyPrims [3] [48, 57]
        (some "p256") = .ok ⟨none, none⟩ ∧
      decryptWithPrivateKey toyPrims w2Env (hexEncode [3])
        (some { curveType := some (some "p256") }) (some emptyScheme) =
        .error (.typeError concatUndefinedMsg) :=
  unsupported_curve_paths toyPrims [2] [9] [3] [48, 57]
    (some "uncompressed") (some "p256") (by decide) (by decide) w2Env
    (hexEncode [3]) (some { curveType := some (some "p256") }) emptyScheme
    rfl rfl rfl

/-! ### Single-recipient round trip with default options -/

/-- composeOptions of an absent options argument yields all defaults. -/
theorem composeOptions_none : composeOptions none =
    ⟨some "sha256", some "sha256", some "secp256k1", "aes-128-ecb",
     some "uncompressed", none, .bytes [], [], []⟩ := rfl

/-- The envelope encryptWithPublicKey assembles for default options and an
empty custom scheme, as a function of the ephemeral private key, the
recipient private key and the plaintext. -/
def defaultEnvelope (P : CryptoPrims) (e p : Bytes) (pt : Str) : AsymmetricEncryptedData :=
  let pubE := P.secpPub (some "uncompressed") e
  let ss := P.secpShared e (P.secpPub (some "uncompressed") p)
  let h := P.hash "sha256" (ss ++ [] ++ pubE)
  let ck := h.take (h.length / 2)
  let mk := h.drop (h.length / 2)
  let ct := P.cipherIv "aes-128-ecb" ck [] pt
  { iv := none
    publicKey := hexEncode (P.secpPub (some "uncompressed") p)
    ephemPublicKey := hexEncode pubE
    ciphertext := hexEncode ct
    mac := hexEncode (P.hmac "sha256" mk (ct ++ []))
    scheme := some DEFAULT_SECP256K1_ASYMMETRIC_SCHEME_NAME }

/-- Encryption with default options and an empty custom scheme produces
exactly defaultEnvelope. -/
theorem encrypt_default (P : CryptoPrims) (G : GoodPrims P) (e p : Bytes) (pt : Str) :
    encryptWithPublicKey P e (hexEncode (P.secpPub (some "uncompressed") p)) pt
      none (some emptyScheme) = .ok (defaultEnvelope P e p pt) := by
  have hpk : hexDecodeLoose (hexEncode (P.secpPub (some "uncompressed") p)) =
      P.secpPub (some "uncompressed") p :=
    hexDecodeLoose_hexEncode _ (G.secpPubBytes _ _)
  simp only [encryptWithPublicKey, composeOptions_none, emptyScheme,
    generateSharedSecretAndEphemPublicKey, if_pos rfl,
    generateEphemPublicKeyAndSharedSecretType1, hpk, kdfKeys,
    generateMessageHash, macCompute, generateMessageMac, symmetricEncrypt,
    bufferFromHex, bufferFromPlain, ivEnvelopeField, resolvedScheme, truthy,
    getDefaultScheme, defaultEnvelope]
  rfl
/-- Decryption with the matching private key round-trips defaultEnvelope
back to the plaintext. -/
theorem decrypt_default (P : CryptoPrims) (G : GoodPrims P) (e p : Bytes)
    (pt : Str) (hp : ∀ b ∈ p, b < 256) (hpt : ∀ b ∈ pt, b < 256) :
    decryptWithPrivateKey P (defaultEnvelope P e p pt) (hexEncode p) none
      (some emptyScheme) = .ok pt := by
  have hct : ∀ k d, hexDecodeLoose (hexEncode (P.cipherIv "aes-128-ecb" k [] d)) =
      P.cipherIv "aes-128-ecb" k [] d :=
    fun k d => hexDecodeLoose_hexEncode _ (G.encBytes _ _ _ _)
  have hmc : ∀ k m, hexDecodeLoose (hexEncode (P.hmac "sha256" k m)) = P.hmac "sha256" k m :=
    fun k m => hexDecodeLoose_hexEncode _ (G.hmacBytes _ _ _)
  have hpkb : hexDecodeLoose (hexEncode p) = p := hexDecodeLoose_hexEncode _ hp
  have hek : hexDecodeLoose (hexEncode (P.secpPub (some "uncompressed") e)) =
      P.secpPub (some "uncompressed") e :=
    hexDecodeLoose_hexEncode _ (G.secpPubBytes _ _)
  have htr : truthy (some DEFAULT_SECP256K1_ASYMMETRIC_SCHEME_NAME) =
      some DEFAULT_SECP256K1_ASYMMETRIC_SCHEME_NAME := rfl
  have hres : resolvedScheme ⟨none, none, none⟩
      ⟨some "sha256", some "sha256", some "secp256k1", "aes-128-ecb",
       some "uncompressed", none, .bytes [], [], []⟩ =
      some DEFAULT_SECP256K1_ASYMMETRIC_SCHEME_NAME := rfl
  have hgen : generateSharedSecretUsingPrivateKey P p
      (hexEncode (P.secpPub (some "uncompressed") e)) (some "secp256k1") =
      .ok ⟨some (P.secpPub (some "uncompressed") e),
           some (P.secpShared p (P.secpPub (some "uncompressed") e))⟩ := by
    unfold generateSharedSecretUsingPrivateKey
    rw [if_pos rfl]
    simp only [generateSharedSecretType1, hek]
  simp only [decryptWithPrivateKey, composeOptions_none, emptyScheme,
    defaultEnvelope, hct, hmc, hpkb, hek, hgen, htr, hres,
    decryptAfterSchemeCheck, kdfKeys, generateMessageHash, macCompute,
    generateMessageMac, symmetricDecrypt]
  rw [if_neg (fun h => h rfl)]
  rw [G.dhSym]
  rw [if_neg (fun h => h (equalConstTime_self _))]
  rw [G.decEnc _ _ _ _ hpt]
/-! ### Serialization lemmas and the onion round trip -/

theorem takeWhile_replicate_one (n : Nat) (l : Str) :
    (List.replicate n 1 ++ 0 :: l).takeWhile (fun b => b ≠ 0) = List.replicate n 1 := by
  induction n with
  | zero => simp [List.takeWhile]
  | succ k ih => simp [List.replicate_succ, List.takeWhile, ih]

theorem parseStr_encStr (s t : Str) : parseStr (encStr s ++ t) = some (s, t) := by
  unfold parseStr encStr
  rw [List.append_assoc, List.cons_append, takeWhile_replicate_one,
    List.length_replicate]
  have hdrop : (List.replicate s.length 1 ++ 0 :: (s ++ t)).drop s.length = 0 :: (s ++ t) := by
    have := List.drop_left (List.replicate s.length 1) (0 :: (s ++ t))
    rwa [List.length_replicate] at this
  dsimp only
  rw [hdrop]
  dsimp only
  rw [if_pos (by simp), List.take_left, List.drop_left]
theorem parseOpt_encOpt (f : Option Str) (t : Str) :
    parseOpt (encOpt f ++ t) = some (f, t) := by
  cases f with
  | none => rfl
  | some s =>
    show parseOpt (1 :: (encStr s ++ t)) = some (some s, t)
    simp [parseOpt, parseStr_encStr]

theorem parseOpt_encOpt_nil (f : Option Str) : parseOpt (encOpt f) = some (f, []) := by
  have := parseOpt_encOpt f []
  rwa [List.append_nil] at this

theorem parseEnvelope_serializeEnvelope (env : AsymmetricEncryptedData)
    (hsch : ∀ c, env.scheme = some c → bytesStr (strBytes c) = c) :
    parseEnvelope (serializeEnvelope env) = some env := by
  obtain ⟨iv, pk, ek, ct, mc, sch⟩ := env
  simp only [serializeEnvelope, List.append_assoc, parseEnvelope,
    parseOpt_encOpt, parseStr_encStr, parseOpt_encOpt_nil, Option.bind_eq_bind,
    Option.some_bind, if_pos rfl]
  cases sch with
  | none => rfl
  | some c =>
    rw [if_pos trivial, Option.map_map]
    show some (AsymmetricEncryptedData.mk iv pk ek ct mc
      (some (bytesStr (strBytes c)))) = _
    rw [hsch c rfl]
theorem encStr_mem_lt (s : Str) (hs : ∀ b ∈ s, b < 256) :
    ∀ b ∈ encStr s, b < 256 := by
  intro b hb
  simp only [encStr, List.mem_append, List.mem_replicate, List.mem_cons] at hb
  rcases hb with ⟨-, rfl⟩ | rfl | hb
  · omega
  · omega
  · exact hs b hb

theorem encOpt_mem_lt (f : Option Str) (hf : ∀ s, f = some s → ∀ b ∈ s, b < 256) :
    ∀ b ∈ encOpt f, b < 256 := by
  intro b hb
  cases f with
  | none =>
    have hb0 : b ∈ [0] := hb
    cases hb0 with
    | head => omega
    | tail _ h => cases h
  | some s =>
    simp only [encOpt, List.mem_cons] at hb
    rcases hb with rfl | hb
    · omega
    · exact encStr_mem_lt s (hf s rfl) b hb

theorem serializeEnvelope_mem_lt (env : AsymmetricEncryptedData)
    (hiv : ∀ s, env.iv = some s → ∀ b ∈ s, b < 256)
    (hpk : ∀ b ∈ env.publicKey, b < 256)
    (hek : ∀ b ∈ env.ephemPublicKey, b < 256)
    (hct : ∀ b ∈ env.ciphertext, b < 256)
    (hmc : ∀ b ∈ env.mac, b < 256)
    (hsc : ∀ c, env.scheme = some c → ∀ b ∈ strBytes c, b < 256) :
    ∀ b ∈ serializeEnvelope env, b < 256 := by
  intro b hb
  simp only [serializeEnvelope, List.mem_append] at hb
  rcases hb with ((((h | h) | h) | h) | h) | h
  · exact encOpt_mem_lt env.iv hiv b h
  · exact encStr_mem_lt _ hpk b h
  · exact encStr_mem_lt _ hek b h
  · exact encStr_mem_lt _ hct b h
  · exact encStr_mem_lt _ hmc b h
  · refine encOpt_mem_lt _ ?_ b h
    intro s hs
    cases hc : env.scheme with
    | none => rw [hc] at hs; cases hs
    | some c =>
      rw [hc] at hs
      simp only [Option.map_some', Option.some.injEq] at hs
      subst hs
      exact hsc c hc
theorem defaultEnvelope_scheme (P : CryptoPrims) (e p : Bytes) (pt : Str) :
    (defaultEnvelope P e p pt).scheme = some DEFAULT_SECP256K1_ASYMMETRIC_SCHEME_NAME := rfl

theorem defaultEnvelope_parse (P : CryptoPrims) (e p : Bytes) (pt : Str) :
    parseEnvelope (serializeEnvelope (defaultEnvelope P e p pt)) =
      some (defaultEnvelope P e p pt) := by
  apply parseEnvelope_serializeEnvelope
  intro c hc
  rw [defaultEnvelope_scheme] at hc
  injection hc with hc
  subst hc
  decide

theorem defaultEnvelope_serialized_lt (P : CryptoPrims) (e p : Bytes) (pt : Str) :
    ∀ b ∈ serializeEnvelope (defaultEnvelope P e p pt), b < 256 := by
  apply serializeEnvelope_mem_lt
  · intro s hs
    rw [show (defaultEnvelope P e p pt).iv = none from rfl] at hs
    cases hs
  · exact hexEncode_mem_lt _
  · exact hexEncode_mem_lt _
  · exact hexEncode_mem_lt _
  · exact hexEncode_mem_lt _
  · intro c hc
    rw [defaultEnvelope_scheme] at hc
    injection hc with hc
    subst hc
    decide

theorem decryptGo_append (P : CryptoPrims) (o : Option EciesOptions)
    (c : Option CustomAsymmetricScheme) (l1 l2 : List Str) (v : Str) :
    decryptWithPrivateKeysGo P v (l1 ++ l2) o c =
      match decryptWithPrivateKeysGo P v l1 o c with
      | .ok w => decryptWithPrivateKeysGo P w l2 o c
      | .error e => .error e := by
  induction l1 generalizing v with
  | nil => rfl
  | cons k rest ih =>
    show decryptWithPrivateKeysGo P v (k :: (rest ++ l2)) o c =
      match decryptWithPrivateKeysGo P v (k :: rest) o c with
      | .ok w => decryptWithPrivateKeysGo P w l2 o c
      | .error e => .error e
    conv_lhs => rw [decryptWithPrivateKeysGo]
    conv_rhs => rw [decryptWithPrivateKeysGo]
    cases parseEnvelope v with
    | none => rfl
    | some env =>
      dsimp only
      cases decryptWithPrivateKey P env k o c with
      | error e => rfl
      | ok plain => exact ih plain
theorem onion_steps (P : CryptoPrims) (G : GoodPrims P) :
    ∀ (recips : List (Bytes × Bytes)) (value : Str),
      recips ≠ [] →
      (∀ r ∈ recips, ∀ b ∈ r.2, b < 256) →
      (∀ b ∈ value, b < 256) →
      ∃ envs last,
        encryptWithPublicKeysGo P
          (recips.map (fun r => (r.1, hexEncode (P.secpPub (some "uncompressed") r.2))))
          value none (some emptyScheme) = .ok envs ∧
        envs.getLast? = some last ∧
        decryptWithPrivateKeysGo P (serializeEnvelope last)
          ((recips.map (fun r => hexEncode r.2)).reverse) none
          (some emptyScheme) = .ok value := by
  intro recips
  induction recips with
  | nil => intro value h; exact absurd rfl h
  | cons r rest ih =>
    intro value _ hb hv
    have hbr : ∀ b ∈ r.2, b < 256 := hb r (List.mem_cons_self r rest)
    have henc := encrypt_default P G r.1 r.2 value
    have hdec := decrypt_default P G r.1 r.2 value hbr hv
    by_cases hrest : rest = []
    · subst hrest
      refine ⟨[defaultEnvelope P r.1 r.2 value], defaultEnvelope P r.1 r.2 value, ?_, rfl, ?_⟩
      · simp only [List.map_cons, List.map_nil, encryptWithPublicKeysGo, henc]
      · simp only [List.map_cons, List.map_nil, List.reverse_cons,
          List.reverse_nil, List.nil_append, decryptWithPrivateKeysGo,
          defaultEnvelope_parse, hdec]
    · have hrest_b : ∀ q ∈ rest, ∀ b ∈ q.2, b < 256 :=
        fun q hq => hb q (List.mem_cons_of_mem _ hq)
      obtain ⟨envs', last, hGo, hlast, hdecGo⟩ :=
        ih (serializeEnvelope (defaultEnvelope P r.1 r.2 value)) hrest hrest_b
          (defaultEnvelope_serialized_lt P r.1 r.2 value)
      refine ⟨defaultEnvelope P r.1 r.2 value :: envs', last, ?_, ?_, ?_⟩
      · simp only [List.map_cons, encryptWithPublicKeysGo, henc, hGo]
      · cases envs' with
        | nil => cases hlast
        | cons a t => rw [List.getLast?_cons_cons]; exact hlast
      · rw [List.map_cons, List.reverse_cons, decryptGo_append, hdecGo]
        simp only [decryptWithPrivateKeysGo, defaultEnvelope_parse, hdec]

/-- C5: onion round trip.  For every plaintext and every list of recipients
(each given by its ephemeral randomness and a private key, the matching
public key being supplied to encryption in the same positional order),
encryptWithPublicKeys wraps sequentially - each stage serialized envelope
becoming the next stage plaintext - and decryptWithPrivateKeys applied to
the last element with the private keys in the same order (walked
back-to-front internally) returns the original plaintext. -/
theorem onion_roundtrip (P : CryptoPrims) (G : GoodPrims P)
    (recips : List (Bytes × Bytes)) (pt : Str)
    (hne : recips ≠ [])
    (hb : ∀ r ∈ recips, ∀ b ∈ r.2, b < 256)
    (hpt : ∀ b ∈ pt, b < 256) :
    ∃ envs last,
      encryptWithPublicKeys P (recips.map Prod.fst) pt
        (recips.map (fun r => hexEncode (P.secpPub (some "uncompressed") r.2)))
        none (some emptyScheme) = .ok envs ∧
      envs.getLast? = some last ∧
      decryptWithPrivateKeys P last (recips.map (fun r => hexEncode r.2))
        none (some emptyScheme) = .ok pt := by
  obtain ⟨envs, last, h1, h2, h3⟩ := onion_steps P G recips pt hne hb hpt
  refine ⟨envs, last, ?_, h2, h3⟩
  unfold encryptWithPublicKeys
  rw [List.zip_map']
  exact h1

/-- Witness for C5: a three-recipient onion with the toy primitives. -/
theorem onion_roundtrip_witness :
    ∃ envs last,
      encryptWithPublicKeys toyPrims
        ([([5], [2]), ([6], [3]), ([7], [4])].map Prod.fst) [115, 101, 99]
        ([([5], [2]), ([6], [3]), ([7], [4])].map
          (fun r => hexEncode (toyPrims.secpPub (some "uncompressed") r.2)))
        none (some emptyScheme) = .ok envs ∧
      envs.getLast? = some last ∧
      decryptWithPrivateKeys toyPrims last
        ([([5], [2]), ([6], [3]), ([7], [4])].map (fun r => hexEncode r.2))
        none (some emptyScheme) = .ok [115, 101, 99] :=
  onion_roundtrip toyPrims toyPrims_good [([5], [2]), ([6], [3]), ([7], [4])]
    [115, 101, 99] (by decide) (by decide) (by decide)

/-! ### C6 (amended): signature verification -/

/-- C6 (amended): with the digest computation shared between sign and
verifySignedWithPublicKey, a signature verifies for a matching key pair;
altering the message (any change to its bytes) or altering the signature in
a way that changes its hex-decoded bytes makes verification return false as
a boolean (the verify primitive is total).  An alteration that only changes
hex-digit case decodes to the same bytes and still verifies - see the
counterexample.  The hypotheses state the ECDSA and hash properties of the
external secp256k1 library: verification accepts exactly the signature of
the digest, signing is injective in the digest, and the hash is injective
with byte-valued output on byte-valued input. -/
theorem sign_verify_behavior (P : CryptoPrims)
    (Hiff : ∀ s d p, P.ecdsaVerify s d (P.sigPub p) = true ↔ s = P.ecdsaSign d p)
    (Hsi : ∀ p d d2, (∀ b ∈ d, b < 256) → (∀ b ∈ d2, b < 256) →
      P.ecdsaSign d p = P.ecdsaSign d2 p → d = d2)
    (Hhi : ∀ m m2, (∀ b ∈ m, b < 256) → (∀ b ∈ m2, b < 256) →
      P.hash "sha256" m = P.hash "sha256" m2 → m = m2)
    (Hhb : ∀ m, (∀ b ∈ m, b < 256) → ∀ b ∈ P.hash "sha256" m, b < 256)
    (Hsb : ∀ d p, ∀ b ∈ P.ecdsaSign d p, b < 256)
    (Hpb : ∀ p, ∀ b ∈ P.sigPub p, b < 256)
    (m priv : Str) (hm : ∀ b ∈ m, b < 256) :
    verifySignedWithPublicKey P m (hexEncode (P.sigPub (hexDecodeLoose priv)))
        (sign P m priv) = true ∧
      (∀ m2, (∀ b ∈ m2, b < 256) → m2 ≠ m →
        verifySignedWithPublicKey P m2
          (hexEncode (P.sigPub (hexDecodeLoose priv))) (sign P m priv) = false) ∧
      (∀ s2, hexDecodeLoose s2 ≠ hexDecodeLoose (sign P m priv) →
        verifySignedWithPublicKey P m
          (hexEncode (P.sigPub (hexDecodeLoose priv))) s2 = false) := by
  have hpub : hexDecodeLoose (hexEncode (P.sigPub (hexDecodeLoose priv))) =
      P.sigPub (hexDecodeLoose priv) :=
    hexDecodeLoose_hexEncode _ (Hpb _)
  have hdig : ∀ v, signDigest P v = P.hash "sha256" (hexEncode v) := by
    intro v
    unfold signDigest createSha256Hash utf8StringToHexString
    exact hexDecodeLoose_hexEncode _ (Hhb _ (hexEncode_mem_lt v))
  have hsigdec : hexDecodeLoose (sign P m priv) =
      P.ecdsaSign (signDigest P m) (hexDecodeLoose priv) := by
    unfold sign
    exact hexDecodeLoose_hexEncode _ (Hsb _ _)
  refine ⟨?_, ?_, ?_⟩
  · unfold verifySignedWithPublicKey
    rw [hsigdec, hpub]
    exact (Hiff _ _ _).mpr rfl
  · intro m2 hm2 hne
    unfold verifySignedWithPublicKey
    rw [hsigdec, hpub]
    cases hv : P.ecdsaVerify (P.ecdsaSign (signDigest P m) (hexDecodeLoose priv))
        (signDigest P m2) (P.sigPub (hexDecodeLoose priv)) with
    | false => rfl
    | true =>
      exfalso
      have hseq := (Hiff _ _ _).mp hv
      have hdeq : signDigest P m = signDigest P m2 :=
        Hsi _ _ _ (by rw [hdig]; exact Hhb _ (hexEncode_mem_lt m))
          (by rw [hdig]; exact Hhb _ (hexEncode_mem_lt m2)) hseq
      rw [hdig, hdig] at hdeq
      have := hexEncode_inj m m2 hm hm2
        (Hhi _ _ (hexEncode_mem_lt m) (hexEncode_mem_lt m2) hdeq)
      exact hne this.symm
  · intro s2 hs2
    unfold verifySignedWithPublicKey
    rw [hpub]
    cases hv : P.ecdsaVerify (hexDecodeLoose s2) (signDigest P m)
        (P.sigPub (hexDecodeLoose priv)) with
    | false => rfl
    | true =>
      exfalso
      exact hs2 (((Hiff _ _ _).mp hv).trans hsigdec.symm)
/-- Helper for discharging the toy ECDSA properties. -/
theorem toy_map_mod_idem (l : Bytes) :
    (l.map (fun x => x % 256)).map (fun x => x % 256) = l.map (fun x => x % 256) := by
  rw [List.map_map]
  apply List.map_congr_left
  intro a _
  simp only [Function.comp_apply]
  omega

theorem toy_map_mod_of_lt (l : Bytes) (h : ∀ b ∈ l, b < 256) :
    l.map (fun x => x % 256) = l := by
  calc l.map (fun x => x % 256) = l.map id :=
    List.map_congr_left (fun a ha => Nat.mod_eq_of_lt (h a ha))
  _ = l := List.map_id l

theorem toy_Hiff : ∀ s d p, toyPrims.ecdsaVerify s d (toyPrims.sigPub p) = true ↔
    s = toyPrims.ecdsaSign d p := by
  intro s d p
  show (s == ((d ++ p.map (fun x => x % 256)).map (fun x => x % 256))) = true ↔
    s = (d ++ p).map (fun x => x % 256)
  rw [List.map_append, List.map_append, toy_map_mod_idem]
  exact beq_iff_eq

theorem toy_Hsi : ∀ p d d2, (∀ b ∈ d, b < 256) → (∀ b ∈ d2, b < 256) →
    toyPrims.ecdsaSign d p = toyPrims.ecdsaSign d2 p → d = d2 := by
  intro p d d2 hd hd2 h
  show d = d2
  have h2 : (d ++ p).map (fun x => x % 256) = (d2 ++ p).map (fun x => x % 256) := h
  rw [List.map_append, List.map_append, toy_map_mod_of_lt d hd,
    toy_map_mod_of_lt d2 hd2] at h2
  exact List.append_cancel_right h2

theorem toy_Hsb : ∀ d p, ∀ b ∈ toyPrims.ecdsaSign d p, b < 256 := by
  intro d p b hb
  simp only [toyPrims, List.mem_map] at hb
  obtain ⟨x, -, rfl⟩ := hb
  exact Nat.mod_lt _ (by omega)

theorem toy_Hpb : ∀ p, ∀ b ∈ toyPrims.sigPub p, b < 256 := by
  intro p b hb
  simp only [toyPrims, List.mem_map] at hb
  obtain ⟨x, -, rfl⟩ := hb
  exact Nat.mod_lt _ (by omega)

/-- Witness for the amended C6 with the toy primitives. -/
theorem sign_verify_behavior_witness :
    verifySignedWithPublicKey toyPrims [97]
        (hexEncode (toyPrims.sigPub (hexDecodeLoose (hexEncode [171]))))
        (sign toyPrims [97] (hexEncode [171])) = true ∧
      verifySignedWithPublicKey toyPrims [98]
        (hexEncode (toyPrims.sigPub (hexDecodeLoose (hexEncode [171]))))
        (sign toyPrims [97] (hexEncode [171])) = false ∧
      verifySignedWithPublicKey toyPrims [97]
        (hexEncode (toyPrims.sigPub (hexDecodeLoose (hexEncode [171]))))
        [48] = false := by
  have T := sign_verify_behavior toyPrims toy_Hiff toy_Hsi
    (fun m m2 _ _ h => h) (fun m hm => hm) toy_Hsb toy_Hpb
    [97] (hexEncode [171]) (by decide)
  exact ⟨T.1, T.2.1 [98] (by decide) (by decide), T.2.2 [48] (by decide)⟩
/-! ### C7 (amended): iv resolution in composeOptions -/

/-- C7 (amended): iv resolution of composeOptions.  An explicit non-empty
iv string is hex-parsed whatever the cipher; an undefined iv becomes
emptyBufferForIv of the chosen cipher (a 16-byte zero buffer for
aes-256-ctr, the empty buffer otherwise); an explicit null iv stays null in
the composed options and reaches the symmetric cipher wrappers as the empty
buffer, overriding any mode requirement; a symmetricCypherType key
explicitly set to undefined is replaced by the default cipher and forces
iv resolution from the cipher type regardless of the caller iv; but - the
correction - when the symmetricCypherType key is entirely absent, the
default cipher is substituted by the spread while a caller-supplied
non-empty iv is still honored. -/
theorem composeOptions_iv_resolution (o : EciesOptions) (c : String) (s : Str) :
    (s ≠ [] →
      (composeOptions
        (some { o with iv := .str s, symmetricCypherType := some (some c) })).iv =
      .bytes (hexDecodeLoose s)) ∧
    ((composeOptions
        (some { o with iv := .undef, symmetricCypherType := some (some c) })).iv =
      .bytes (emptyBufferForIv c)) ∧
    (emptyBufferForIv "aes-256-ctr" = List.replicate 16 0) ∧
    (c ≠ "aes-256-ctr" → emptyBufferForIv c = []) ∧
    ((composeOptions
        (some { o with iv := .null, symmetricCypherType := some (some c) })).iv =
      .null) ∧
    (∀ Q n k d, symmetricEncrypt Q n .null k d = Q.cipherIv n k [] d) ∧
    (∀ Q n k d, symmetricDecrypt Q n .null k d = Q.decipherIv n k [] d) ∧
    ((composeOptions
        (some { o with symmetricCypherType := some none })).symmetricCypherType =
      defaultSymmetricCypherType) ∧
    ((composeOptions (some { o with symmetricCypherType := some none })).iv =
      .bytes (emptyBufferForIv defaultSymmetricCypherType)) ∧
    ((composeOptions
        (some { o with symmetricCypherType := none, iv := .str s })).symmetricCypherType =
      defaultSymmetricCypherType) ∧
    (s ≠ [] →
      (composeOptions
        (some { o with symmetricCypherType := none, iv := .str s })).iv =
      .bytes (hexDecodeLoose s)) := by
  refine ⟨?_, ?_, rfl, ?_, ?_, fun Q n k d => rfl, fun Q n k d => rfl,
    rfl, rfl, rfl, ?_⟩
  · intro hs
    simp only [composeOptions, Option.getD_some, mergeField]
    rw [if_pos hs]
  · rfl
  · intro hc
    unfold emptyBufferForIv
    rw [if_neg hc]
  · rfl
  · intro hs
    simp only [composeOptions, Option.getD_some, mergeField]
    rw [if_pos hs]
/-- Witness for the amended C7 at concrete options. -/
theorem composeOptions_iv_resolution_witness :
    ((composeOptions
        (some { iv := .str [48, 49], symmetricCypherType := some (some "aes-128-ecb") })).iv =
      .bytes (hexDecodeLoose [48, 49])) ∧
    ((composeOptions
        (some { iv := .undef, symmetricCypherType := some (some "aes-128-ecb") })).iv =
      .bytes (emptyBufferForIv "aes-128-ecb")) ∧
    (emptyBufferForIv "aes-256-ctr" = List.replicate 16 0) ∧
    (emptyBufferForIv "aes-128-ecb" = []) ∧
    ((composeOptions
        (some { iv := .null, symmetricCypherType := some (some "aes-128-ecb") })).iv =
      .null) ∧
    (symmetricEncrypt toyPrims "aes-256-ctr" .null [5] [7] =
      toyPrims.cipherIv "aes-256-ctr" [5] [] [7]) ∧
    (symmetricDecrypt toyPrims "aes-256-ctr" .null [5] [7] =
      toyPrims.decipherIv "aes-256-ctr" [5] [] [7]) ∧
    ((composeOptions
        (some { symmetricCypherType := some none })).symmetricCypherType =
      defaultSymmetricCypherType) ∧
    ((composeOptions (some { symmetricCypherType := some none })).iv =
      .bytes (emptyBufferForIv defaultSymmetricCypherType)) ∧
    ((composeOptions
        (some { symmetricCypherType := none, iv := .str [48, 49] })).symmetricCypherType =
      defaultSymmetricCypherType) ∧
    ((composeOptions
        (some { symmetricCypherType := none, iv := .str [48, 49] })).iv =
      .bytes (hexDecodeLoose [48, 49])) := by
  obtain ⟨a1, a2, a3, a4, a5, a6, a7, a8, a9, a10, a11⟩ :=
    composeOptions_iv_resolution {} "aes-128-ecb" [48, 49]
  exact ⟨a1 (by decide), a2, a3, a4 (by decide), a5,
    a6 toyPrims "aes-256-ctr" [5] [7], a7 toyPrims "aes-256-ctr" [5] [7],
    a8, a9, a10, a11 (by decide)⟩

end ChainJs
